import Mathlib

/-!
Shallow embedding of the Mini-CRM lead-management console.

Sources embedded:
- `src/components/LeadCreationForm.tsx` (`Lead` type, `handleSubmit`, `handleFileUpload`)
- `src/components/LeadDashboard.tsx` (`onLeadUpdated`, `onLeadDeleted`, `filteredLeads`,
  `handleStatusUpdate`, `handleDelete`, and the `LeadInteractionModal` chat session)
- `src/pages/Index.tsx` (`handleLeadAdded`: prepend to the collection)

Remote HTTP calls (`fetch`) are modelled by an `Option`-valued parameter giving the
call outcome (`none` = network failure or non-ok response), plus an explicit `Event`
trace recording, in program order, the local mutations, remote calls and toasts each
handler performs.  The chat streaming resource `streamChatGPT` lives in
`src/lib/chatgpt.ts`, which is not part of the provided sources; it is modelled from
the spec as a stream that delivers chunks to its `onChunk` callback and whose
cancellation is governed by the cancellation token it is given — at this call site the
code passes no token (`streamChatGPT(fullPrompt, onChunk)`), which the model reflects
by attaching no abort signal to a started stream.
-/

/-- Lead status enum, `"New" | "Contacted"` in the source. -/
inductive Status
  | New
  | Contacted
deriving DecidableEq, Repr

/-- Lead source enum, `"Manual" | "Document"` in the source. -/
inductive LeadSource
  | Manual
  | Document
deriving DecidableEq, Repr

/-- The `Lead` record from `LeadCreationForm.tsx`.  `createdAt : Date` is embedded as a
numeric timestamp (milliseconds since epoch, as `Date.now()` produces). -/
structure Lead where
  id : String
  name : String
  email : String
  phone : String
  status : Status
  source : LeadSource
  createdAt : Nat
deriving DecidableEq, Repr

/-- A `Partial<Lead>` as used by `onLeadUpdated`: each field optionally present. -/
structure LeadUpdates where
  id : Option String := none
  name : Option String := none
  email : Option String := none
  phone : Option String := none
  status : Option Status := none
  source : Option LeadSource := none
  createdAt : Option Nat := none
deriving DecidableEq, Repr

/-- JavaScript object spread `{ ...lead, ...updates }`: fields present in `updates`
override the corresponding fields of `lead`. -/
def applyUpdates (lead : Lead) (updates : LeadUpdates) : Lead :=
  { id := updates.id.getD lead.id
    name := updates.name.getD lead.name
    email := updates.email.getD lead.email
    phone := updates.phone.getD lead.phone
    status := updates.status.getD lead.status
    source := updates.source.getD lead.source
    createdAt := updates.createdAt.getD lead.createdAt }

/-- The update object `{ status: newStatus }` passed by `handleStatusUpdate`. -/
def statusUpdate (newStatus : Status) : LeadUpdates :=
  { status := some newStatus }

/-- `onLeadUpdated` from `LeadDashboard.tsx` (and identically `handleLeadUpdated` in
`Index.tsx`): `prev.map(lead => lead.id === leadId ? { ...lead, ...updates } : lead)`. -/
def onLeadUpdated (leads : List Lead) (leadId : String) (updates : LeadUpdates) : List Lead :=
  leads.map (fun lead => if lead.id = leadId then applyUpdates lead updates else lead)

/-- `onLeadDeleted` from `LeadDashboard.tsx`:
`prev.filter(lead => lead.id !== leadId)`. -/
def onLeadDeleted (leads : List Lead) (leadId : String) : List Lead :=
  leads.filter (fun lead => lead.id != leadId)

/-- The dashboard status filter, `"All" | "New" | "Contacted"` in the source. -/
inductive StatusFilter
  | All
  | New
  | Contacted
deriving DecidableEq, Repr

/-- The predicate inside `filteredLeads`:
`filter === "All" ? true : lead.status === filter`. -/
def matchesFilter (f : StatusFilter) (lead : Lead) : Bool :=
  match f with
  | .All => true
  | .New => lead.status == Status.New
  | .Contacted => lead.status == Status.Contacted

/-- `filteredLeads` from `LeadDashboard.tsx`:
`leads.filter(lead => filter === "All" ? true : lead.status === filter)`. -/
def filteredLeads (leads : List Lead) (f : StatusFilter) : List Lead :=
  leads.filter (matchesFilter f)

/-- Remote HTTP calls the handlers issue (modelled abstractly). -/
inductive RemoteCall
  | postLead (lead : Lead)
  | putStatus (leadId : String) (newStatus : Status)
  | deleteLead (leadId : String)
  | extractLead (fileName : String)
  | getLeads
deriving DecidableEq, Repr

/-- Observable effects of a handler, recorded in program order. -/
inductive Event
  | setLeadsLocal (leads : List Lead)
  | remote (call : RemoteCall)
  | leadAdded (lead : Lead)
  | toast (title : String)
deriving DecidableEq, Repr

/-- The manual-entry form state `{ name, email, phone }`. -/
structure FormData where
  name : String
  email : String
  phone : String
deriving DecidableEq, Repr

/-- The cleared form `{ name: "", email: "", phone: "" }`. -/
def emptyForm : FormData := ⟨"", "", ""⟩

/-- The provisional lead built by `handleSubmit`:
`{ id: Date.now().toString(), ...formData, status: "New", source: "Manual", createdAt: new Date() }`. -/
def mkManualLead (form : FormData) (now : Nat) : Lead :=
  { id := toString now
    name := form.name
    email := form.email
    phone := form.phone
    status := Status.New
    source := LeadSource.Manual
    createdAt := now }

/-- Result of a `handleSubmit` run: the lead collection after `onLeadAdded`
(`Index.tsx` prepends), the form state, and the effect trace. -/
structure SubmitResult where
  leads : List Lead
  form : FormData
  events : List Event
deriving DecidableEq, Repr

/-- `handleSubmit` from `LeadCreationForm.tsx`, composed with `handleLeadAdded` from
`Index.tsx`.  The JS guard `!formData.name || !formData.email` tests string falsiness,
i.e. equality with the empty string (no trimming).  `remote` is the outcome of the
`POST /leads` fetch: `some savedLead` is the parsed server response inserted by
`onLeadAdded(savedLead)`; `none` covers both a network error and `!response.ok`.
The final `setFormData({name:"",email:"",phone:""})` runs after the try/catch on both
outcomes, but is unreachable on the early-return validation path. -/
def handleSubmit (form : FormData) (leads : List Lead) (now : Nat) (remote : Option Lead) :
    SubmitResult :=
  if form.name = "" ∨ form.email = "" then
    { leads := leads, form := form, events := [Event.toast "Missing Information"] }
  else
    let newLead := mkManualLead form now
    match remote with
    | some savedLead =>
        { leads := savedLead :: leads
          form := emptyForm
          events := [Event.remote (RemoteCall.postLead newLead),
                     Event.leadAdded savedLead, Event.toast "Lead Added"] }
    | none =>
        { leads := leads
          form := emptyForm
          events := [Event.remote (RemoteCall.postLead newLead), Event.toast "Error"] }

/-- An uploaded file: its name and its media type (`file.type`). -/
structure UploadFile where
  fileName : String
  mediaType : String
deriving DecidableEq, Repr

/-- The JSON body returned by `POST /extract-lead`: each field optionally present. -/
structure ExtractResult where
  id : Option String := none
  name : Option String := none
  email : Option String := none
  phone : Option String := none
deriving DecidableEq, Repr

/-- JavaScript `v || dflt` on an optional string: absent and empty strings are falsy. -/
def jsOr (v : Option String) (dflt : String) : String :=
  match v with
  | some s => if s = "" then dflt else s
  | none => dflt

/-- Component state of `LeadCreationForm` touched by `handleFileUpload`. -/
structure FormState where
  formData : FormData
  uploadedFile : Option UploadFile
  isProcessing : Bool
deriving DecidableEq, Repr

/-- Result of a `handleFileUpload` run. -/
structure UploadResult where
  state : FormState
  leads : List Lead
  events : List Event
deriving DecidableEq, Repr

/-- The lead built from an extraction response:
`{ id: data.id || Date.now().toString(), name: data.name || "", email: data.email || "",
phone: data.phone || "", status: "New", source: "Document", createdAt: new Date() }`. -/
def mkDocumentLead (data : ExtractResult) (now : Nat) : Lead :=
  { id := jsOr data.id (toString now)
    name := jsOr data.name ""
    email := jsOr data.email ""
    phone := jsOr data.phone ""
    status := Status.New
    source := LeadSource.Document
    createdAt := now }

/-- `handleFileUpload` from `LeadCreationForm.tsx`, composed with `handleLeadAdded`.
`allowedTypes = ["application/pdf"]`; a file whose type is not in the list is rejected
with a toast before any state change or network call.  On an accepted file the code
sets `uploadedFile` and `isProcessing := true`, issues the extraction call, and the
trailing `setIsProcessing(false)` runs after the try/catch on both outcomes. -/
def handleFileUpload (st : FormState) (leads : List Lead) (file : Option UploadFile)
    (now : Nat) (remote : Option ExtractResult) : UploadResult :=
  match file with
  | none => { state := st, leads := leads, events := [] }
  | some f =>
    if f.mediaType ∈ (["application/pdf"] : List String) then
      match remote with
      | some data =>
          let newLead := mkDocumentLead data now
          { state := { formData := emptyForm, uploadedFile := none, isProcessing := false }
            leads := newLead :: leads
            events := [Event.remote (RemoteCall.extractLead f.fileName),
                       Event.leadAdded newLead, Event.toast "Lead Extracted"] }
      | none =>
          { state := { st with uploadedFile := some f, isProcessing := false }
            leads := leads
            events := [Event.remote (RemoteCall.extractLead f.fileName), Event.toast "Error"] }
    else
      { state := st, leads := leads, events := [Event.toast "Invalid File Type"] }

/-- Result of a status-update or delete handler run. -/
structure MutationResult where
  leads : List Lead
  events : List Event
deriving DecidableEq, Repr

/-- `handleStatusUpdate` from `LeadDashboard.tsx`: applies `onLeadUpdated` with
`{ status: newStatus }` first, then issues the remote `PUT`; the catch branch only
toasts, it does not touch the collection. -/
def handleStatusUpdate (leads : List Lead) (leadId : String) (newStatus : Status)
    (remoteOk : Bool) : MutationResult :=
  let updated := onLeadUpdated leads leadId (statusUpdate newStatus)
  { leads := updated
    events := Event.setLeadsLocal updated ::
      Event.remote (RemoteCall.putStatus leadId newStatus) ::
      (if remoteOk then [Event.toast "Status Updated"] else [Event.toast "Error"]) }

/-- `handleDelete` from `LeadDashboard.tsx`: applies `onLeadDeleted` first, then issues
the remote `DELETE`; the catch branch only toasts, it does not touch the collection. -/
def handleDelete (leads : List Lead) (leadId : String) (remoteOk : Bool) : MutationResult :=
  let remaining := onLeadDeleted leads leadId
  { leads := remaining
    events := Event.setLeadsLocal remaining ::
      Event.remote (RemoteCall.deleteLead leadId) ::
      (if remoteOk then [Event.toast "Lead Deleted"] else [Event.toast "Error"]) }

/-- Message sender, `"user" | "ai"` in the source. -/
inductive Sender
  | user
  | ai
deriving DecidableEq, Repr

/-- Chat message identifiers.  The source uses the template strings `"welcome"`,
`` `user-${Date.now()}` `` and `` `ai-${Date.now()}` ``; the templates are injective in
the timestamp, so the identifiers are embedded structurally. -/
inductive MsgId
  | welcome
  | userMsg (t : Nat)
  | aiMsg (t : Nat)
deriving DecidableEq, Repr

/-- The `ChatMessage` record from `LeadInteractionModal`. -/
structure ChatMessage where
  id : MsgId
  text : String
  sender : Sender
  timestamp : Nat
deriving DecidableEq, Repr

/-- An in-flight `streamChatGPT` request: the timestamp of the AI placeholder it writes
to (`aiMessageId`), the generation number of the `AbortController` created for it, and
the closure variable `streamedText` accumulated so far.  The call site passes no
cancellation signal to the stream, so no signal field is attached. -/
structure StreamReq where
  target : Nat
  ctrl : Nat
  acc : String
deriving DecidableEq, Repr

/-- State of one `LeadInteractionModal` chat session.  `current` is
`abortControllerRef.current` (the generation of the live controller, if any);
`aborted` records every controller generation on which `.abort()` has been called;
`nextCtrl` generates fresh controller generations; `clock` is the `Date.now()` value,
advancing strictly at each event; `streams` holds the in-flight (unsettled)
`streamChatGPT` requests. -/
structure Session where
  isOpen : Bool
  messages : List ChatMessage
  inputMessage : String
  loading : Bool
  current : Option Nat
  aborted : List Nat
  nextCtrl : Nat
  clock : Nat
  streams : List StreamReq
deriving DecidableEq, Repr

/-- The initial session state: modal closed, nothing in flight. -/
def initSession : Session :=
  { isOpen := false, messages := [], inputMessage := "", loading := false,
    current := none, aborted := [], nextCtrl := 0, clock := 0, streams := [] }

/-- The synthesized greeting message (id `"welcome"`). -/
def welcomeMsg (leadName : String) (t : Nat) : ChatMessage :=
  { id := MsgId.welcome
    text := "Hi! I\x27m your AI assistant. I can help you follow up with " ++ leadName ++
      ". What would you like to know?"
    sender := Sender.ai
    timestamp := t }

/-- The fixed failure notice written into the placeholder on a non-abort stream error. -/
def failNotice : String := "⚠️ AI failed to respond. Please try again."

/-- Embeds the JavaScript emptiness test `!s.trim()`: the trimmed string is empty
exactly when every character of `s` is whitespace. -/
def trimEmpty (s : String) : Bool := s.data.all Char.isWhitespace

/-- Calling `.abort()` on `abortControllerRef.current` (a no-op when it is null).
The source does not null the reference here; only `close` and the `finally` block do. -/
def abortCurrent (s : Session) : Session :=
  match s.current with
  | some g => { s with aborted := g :: s.aborted }
  | none => s

/-- The session-level events of `LeadInteractionModal`:
opening the modal (the `isOpen && lead?.name` effect branch), closing it (the `!isOpen`
effect branch), editing the input, `handleSendMessage`, and the three ways an in-flight
stream can progress (a chunk delivery, successful completion, rejection with either an
`AbortError` or any other error). -/
inductive ChatAction
  | openModal (leadName : String)
  | closeModal
  | setInput (text : String)
  | send
  | deliverChunk (i : Nat) (chunk : String)
  | streamComplete (i : Nat)
  | streamError (i : Nat) (isAbort : Bool)
deriving DecidableEq, Repr

/-- One step of the chat session.  Each branch mirrors the corresponding source code:

* `openModal`: the effect sets `messages` to the single welcome message.
* `closeModal`: the effect resets `messages`, `inputMessage`, `loading`, aborts and
  nulls the current controller.
* `setInput`: the input field is disabled while `loading` and only rendered while open.
* `send` (`handleSendMessage`): returns early when `!inputMessage.trim() || loading`;
  otherwise aborts the current controller, appends the user message, clears the input,
  sets `loading`, appends the empty AI placeholder, creates a fresh `AbortController`
  and starts a stream targeting the placeholder.  No cancellation signal is passed to
  the stream (`streamChatGPT(fullPrompt, onChunk)`), so the started stream carries
  only its target and the generation of the controller that was created for it.
* `deliverChunk`: the stream resource invokes `onChunk`; since the call site passed no
  token, the modelled-from-spec resource never suppresses delivery, and `onChunk`
  appends the chunk to `streamedText` and rewrites the message whose id equals
  `aiMessageId`.
* `streamComplete` / `streamError`: the promise settles; the catch branch rewrites the
  placeholder text to the failure notice unless the error is an `AbortError`; the
  `finally` branch clears `loading` and nulls the controller reference on every
  settlement. -/
def chatStep (s : Session) : ChatAction → Session
  | .openModal leadName =>
      { s with isOpen := true
               messages := [welcomeMsg leadName s.clock]
               clock := s.clock + 1 }
  | .closeModal =>
      let s1 := abortCurrent s
      { s1 with isOpen := false, messages := [], inputMessage := "",
                loading := false, current := none }
  | .setInput text =>
      if s.isOpen ∧ ¬s.loading then { s with inputMessage := text } else s
  | .send =>
      if trimEmpty s.inputMessage ∨ s.loading then s
      else
        let s1 := abortCurrent s
        let t := s1.clock
        let userMessage : ChatMessage :=
          { id := MsgId.userMsg t, text := s1.inputMessage, sender := Sender.user,
            timestamp := t }
        let newAIMessage : ChatMessage :=
          { id := MsgId.aiMsg (t + 1), text := "", sender := Sender.ai,
            timestamp := t + 1 }
        let g := s1.nextCtrl
        { s1 with messages := s1.messages ++ [userMessage, newAIMessage]
                  inputMessage := ""
                  loading := true
                  current := some g
                  nextCtrl := g + 1
                  clock := t + 2
                  streams := s1.streams ++ [{ target := t + 1, ctrl := g, acc := "" }] }
  | .deliverChunk i chunk =>
      match s.streams.get? i with
      | some sr =>
          let newAcc := sr.acc ++ chunk
          { s with
              messages := s.messages.map (fun m =>
                if m.id = MsgId.aiMsg sr.target then { m with text := newAcc } else m),
              streams := s.streams.set i { sr with acc := newAcc } }
      | none => s
  | .streamComplete i =>
      match s.streams.get? i with
      | some _ =>
          { s with streams := s.streams.eraseIdx i, loading := false, current := none }
      | none => s
  | .streamError i isAbort =>
      match s.streams.get? i with
      | some sr =>
          let msgs :=
            if isAbort then s.messages
            else s.messages.map (fun m =>
              if m.id = MsgId.aiMsg sr.target then { m with text := failNotice } else m)
          { s with messages := msgs, streams := s.streams.eraseIdx i,
                   loading := false, current := none }
      | none => s

/-- Running a session from the initial state through a list of events. -/
def runChat (acts : List ChatAction) : Session :=
  acts.foldl chatStep initSession

/-- Identity of a message is unchanged by the text rewrite that `onChunk` and the
error branch perform. -/
theorem textWrite_id (m : ChatMessage) (tg : Nat) (tx : String) :
    (if m.id = MsgId.aiMsg tg then { m with text := tx } else m).id = m.id := by
  split <;> rfl

/-- A map that fixes every element of a list is the identity on that list. -/
theorem list_map_id_of_mem {α : Type} (l : List α) (f : α → α) (h : ∀ a ∈ l, f a = a) :
    l.map f = l := by
  induction l with
  | nil => rfl
  | cons x xs ih =>
      simp only [List.map_cons]
      rw [h x (List.mem_cons_self x xs), ih (fun a ha => h a (List.mem_cons_of_mem x ha))]

/-- Invariant of reachable chat-session states: a live controller implies `loading`;
controller generations in use are below the generator; in-flight stream targets and
AI-message timestamps are in the past of the clock; and the placeholder targeted by a
stream whose controller has been aborted is no longer present in the transcript
(aborting only happens when the session closes, which clears the transcript, and
later messages carry strictly fresher timestamps). -/
structure ChatInv (s : Session) : Prop where
  cur_loading : ∀ g, s.current = some g → s.loading = true
  cur_lt : ∀ g, s.current = some g → g < s.nextCtrl
  aborted_lt : ∀ g ∈ s.aborted, g < s.nextCtrl
  stream_clock : ∀ sr ∈ s.streams, sr.target < s.clock
  msg_clock : ∀ m ∈ s.messages, ∀ t, m.id = MsgId.aiMsg t → t < s.clock
  cancelled_gone : ∀ sr ∈ s.streams, sr.ctrl ∈ s.aborted →
    ∀ m ∈ s.messages, m.id ≠ MsgId.aiMsg sr.target

theorem chatInv_init : ChatInv initSession := by
  refine ⟨?_, ?_, ?_, ?_, ?_, ?_⟩ <;> simp [initSession]

theorem chatInv_step (s : Session) (h : ChatInv s) (a : ChatAction) :
    ChatInv (chatStep s a) := by
  cases a with
  | openModal leadName =>
      refine ⟨h.cur_loading, h.cur_lt, h.aborted_lt,
        fun sr hsr => Nat.lt_succ_of_lt (h.stream_clock sr hsr), ?_, ?_⟩
      · intro m hm t hid
        simp only [chatStep, List.mem_singleton] at hm
        subst hm
        simp [welcomeMsg] at hid
      · intro sr hsr hab m hm
        simp only [chatStep, List.mem_singleton] at hm
        subst hm
        simp [welcomeMsg]
  | closeModal =>
      cases hc : s.current with
      | none =>
          refine ⟨?_, ?_, ?_, ?_, ?_, ?_⟩ <;>
            simp only [chatStep, abortCurrent, hc]
          · simp
          · simp
          · exact h.aborted_lt
          · exact h.stream_clock
          · simp
          · simp
      | some g =>
          refine ⟨?_, ?_, ?_, ?_, ?_, ?_⟩ <;>
            simp only [chatStep, abortCurrent, hc]
          · simp
          · simp
          · intro g' hg'
            rcases List.mem_cons.mp hg' with rfl | hg'
            · exact h.cur_lt g' hc
            · exact h.aborted_lt g' hg'
          · exact h.stream_clock
          · simp
          · simp
  | setInput text =>
      by_cases hc : (s.isOpen = true ∧ ¬s.loading = true)
      · simp only [chatStep, if_pos hc]
        exact ⟨h.cur_loading, h.cur_lt, h.aborted_lt, h.stream_clock, h.msg_clock,
          h.cancelled_gone⟩
      · simp only [chatStep, if_neg hc]
        exact h
  | send =>
      by_cases hcond : (trimEmpty s.inputMessage = true ∨ s.loading = true)
      · simp only [chatStep, if_pos hcond]
        exact h
      · have hload : s.loading = false := by
          cases hb : s.loading with
          | false => rfl
          | true => exact absurd (Or.inr hb) hcond
        have hnone : s.current = none := by
          cases hcur : s.current with
          | none => rfl
          | some g =>
              have hl := h.cur_loading g hcur
              rw [hload] at hl
              exact absurd hl Bool.false_ne_true
        have habort : abortCurrent s = s := by
          simp [abortCurrent, hnone]
        refine ⟨?_, ?_, ?_, ?_, ?_, ?_⟩ <;>
          simp only [chatStep, if_neg hcond, habort]
        · intro g hg
          trivial
        · intro g hg
          injection hg with hg'
          subst hg'
          exact Nat.lt_succ_self _
        · exact fun g hg => Nat.lt_succ_of_lt (h.aborted_lt g hg)
        · intro sr hsr
          rcases List.mem_append.mp hsr with hold | hnew
          · exact Nat.lt_of_lt_of_le (h.stream_clock sr hold) (by omega)
          · simp only [List.mem_singleton] at hnew
            subst hnew
            show s.clock + 1 < s.clock + 2
            omega
        · intro m hm t hid
          rcases List.mem_append.mp hm with hold | hnew
          · exact Nat.lt_of_lt_of_le (h.msg_clock m hold t hid) (by omega)
          · simp only [List.mem_cons, List.not_mem_nil, or_false] at hnew
            rcases hnew with rfl | rfl
            · simp at hid
            · have hid2 : MsgId.aiMsg (s.clock + 1) = MsgId.aiMsg t := hid
              injection hid2 with hid'
              omega
        · intro sr hsr hab m hm
          rcases List.mem_append.mp hsr with hsold | hsnew
          · rcases List.mem_append.mp hm with hmold | hmnew
            · exact h.cancelled_gone sr hsold hab m hmold
            · simp only [List.mem_cons, List.not_mem_nil, or_false] at hmnew
              rcases hmnew with rfl | rfl
              · simp
              · have htgt := h.stream_clock sr hsold
                intro heq
                have heq2 : MsgId.aiMsg (s.clock + 1) = MsgId.aiMsg sr.target := heq
                injection heq2 with heq'
                omega
          · simp only [List.mem_singleton] at hsnew
            subst hsnew
            have hlt : s.nextCtrl < s.nextCtrl := h.aborted_lt _ hab
            exact absurd hlt (lt_irrefl _)
  | deliverChunk i chunk =>
      cases hg : s.streams.get? i with
      | none =>
          simp only [chatStep, hg]
          exact h
      | some sr =>
          have hmem : sr ∈ s.streams := List.get?_mem hg
          refine ⟨?_, ?_, ?_, ?_, ?_, ?_⟩ <;>
            simp only [chatStep, hg]
          · exact h.cur_loading
          · exact h.cur_lt
          · exact h.aborted_lt
          · intro sr' hsr'
            rcases List.mem_or_eq_of_mem_set hsr' with hold | rfl
            · exact h.stream_clock sr' hold
            · exact h.stream_clock sr hmem
          · intro m' hm' t hid
            rcases List.mem_map.mp hm' with ⟨m, hm, rfl⟩
            rw [textWrite_id] at hid
            exact h.msg_clock m hm t hid
          · intro sr' hsr' hab m' hm'
            rcases List.mem_map.mp hm' with ⟨m, hm, rfl⟩
            rw [textWrite_id]
            rcases List.mem_or_eq_of_mem_set hsr' with hold | rfl
            · exact h.cancelled_gone sr' hold hab m hm
            · exact h.cancelled_gone sr hmem hab m hm
  | streamComplete i =>
      cases hg : s.streams.get? i with
      | none =>
          simp only [chatStep, hg]
          exact h
      | some sr =>
          refine ⟨?_, ?_, ?_, ?_, ?_, ?_⟩ <;>
            simp only [chatStep, hg]
          · simp
          · simp
          · exact h.aborted_lt
          · exact fun sr' hsr' =>
              h.stream_clock sr' ((List.eraseIdx_sublist s.streams i).subset hsr')
          · exact h.msg_clock
          · exact fun sr' hsr' hab m hm =>
              h.cancelled_gone sr' ((List.eraseIdx_sublist s.streams i).subset hsr') hab m hm
  | streamError i isAbort =>
      cases hg : s.streams.get? i with
      | none =>
          simp only [chatStep, hg]
          exact h
      | some sr =>
          have hmem : sr ∈ s.streams := List.get?_mem hg
          cases isAbort with
          | true =>
              refine ⟨?_, ?_, ?_, ?_, ?_, ?_⟩ <;>
                simp only [chatStep, hg, if_pos]
              · simp
              · simp
              · exact h.aborted_lt
              · exact fun sr' hsr' =>
                  h.stream_clock sr' ((List.eraseIdx_sublist s.streams i).subset hsr')
              · exact h.msg_clock
              · exact fun sr' hsr' hab m hm =>
                  h.cancelled_gone sr' ((List.eraseIdx_sublist s.streams i).subset hsr') hab m hm
          | false =>
              refine ⟨?_, ?_, ?_, ?_, ?_, ?_⟩ <;>
                simp only [chatStep, hg, Bool.false_eq_true, if_neg]
              · simp
              · simp
              · exact h.aborted_lt
              · exact fun sr' hsr' =>
                  h.stream_clock sr' ((List.eraseIdx_sublist s.streams i).subset hsr')
              · intro m' hm' t hid
                rcases List.mem_map.mp hm' with ⟨m, hm, rfl⟩
                rw [textWrite_id] at hid
                exact h.msg_clock m hm t hid
              · intro sr' hsr' hab m' hm'
                rcases List.mem_map.mp hm' with ⟨m, hm, rfl⟩
                rw [textWrite_id]
                exact h.cancelled_gone sr'
                  ((List.eraseIdx_sublist s.streams i).subset hsr') hab m hm

theorem chatInv_foldl (acts : List ChatAction) :
    ∀ s : Session, ChatInv s → ChatInv (acts.foldl chatStep s) := by
  induction acts with
  | nil => exact fun s h => h
  | cons a rest ih => exact fun s h => ih (chatStep s a) (chatInv_step s h a)

/-- Every state reachable from the initial session satisfies the invariant. -/
theorem chatInv_run (acts : List ChatAction) : ChatInv (runChat acts) :=
  chatInv_foldl acts initSession chatInv_init

/-- Delivering a chunk of a stream whose controller has been aborted leaves the
transcript unchanged: by the invariant, its placeholder is no longer present, so the
`onChunk` rewrite fixes every message. -/
theorem cancelled_deliver_messages (s : Session) (h : ChatInv s) (i : Nat) (chunk : String)
    (sr : StreamReq) (hg : s.streams.get? i = some sr) (hab : sr.ctrl ∈ s.aborted) :
    (chatStep s (ChatAction.deliverChunk i chunk)).messages = s.messages := by
  simp only [chatStep, hg]
  exact list_map_id_of_mem _ _ (fun m hm => by
    rw [if_neg (h.cancelled_gone sr (List.get?_mem hg) hab m hm)])

/-- Once a controller generation has been aborted, it stays aborted under every
further session event. -/
theorem aborted_mono (s : Session) (a : ChatAction) (g : Nat) (hg : g ∈ s.aborted) :
    g ∈ (chatStep s a).aborted := by
  cases a with
  | openModal leadName => exact hg
  | closeModal =>
      cases hc : s.current with
      | none =>
          simp only [chatStep, abortCurrent, hc]
          exact hg
      | some g' =>
          simp only [chatStep, abortCurrent, hc]
          exact List.mem_cons_of_mem _ hg
  | setInput text =>
      by_cases hc : (s.isOpen = true ∧ ¬s.loading = true)
      · simp only [chatStep, if_pos hc]
        exact hg
      · simp only [chatStep, if_neg hc]
        exact hg
  | send =>
      by_cases hcond : (trimEmpty s.inputMessage = true ∨ s.loading = true)
      · simp only [chatStep, if_pos hcond]
        exact hg
      · cases hc : s.current with
        | none =>
            simp only [chatStep, if_neg hcond, abortCurrent, hc]
            exact hg
        | some g' =>
            simp only [chatStep, if_neg hcond, abortCurrent, hc]
            exact List.mem_cons_of_mem _ hg
  | deliverChunk i chunk =>
      cases hgt : s.streams.get? i with
      | none =>
          simp only [chatStep, hgt]
          exact hg
      | some sr =>
          simp only [chatStep, hgt]
          exact hg
  | streamComplete i =>
      cases hgt : s.streams.get? i with
      | none =>
          simp only [chatStep, hgt]
          exact hg
      | some sr =>
          simp only [chatStep, hgt]
          exact hg
  | streamError i isAbort =>
      cases hgt : s.streams.get? i with
      | none =>
          simp only [chatStep, hgt]
          exact hg
      | some sr =>
          simp only [chatStep, hgt]
          exact hg

/-- C2: for every valid draft (non-empty name and email), the remote create call is
the first effect issued, only the server-confirmed lead object is inserted, at the
head of the collection; on remote failure the collection is unchanged; and the form
is cleared on both the success and the failure path. -/
theorem C2_create_server_confirmed (form : FormData) (leads : List Lead) (now : Nat)
    (hname : form.name ≠ "") (hemail : form.email ≠ "") :
    (∀ savedLead : Lead,
        (handleSubmit form leads now (some savedLead)).leads = savedLead :: leads) ∧
    (handleSubmit form leads now none).leads = leads ∧
    (∀ remote : Option Lead, (handleSubmit form leads now remote).form = emptyForm) ∧
    (∀ remote : Option Lead, (handleSubmit form leads now remote).events.get? 0
        = some (Event.remote (RemoteCall.postLead (mkManualLead form now)))) := by
  have hvalid : ¬(form.name = "" ∨ form.email = "") := by
    rintro (h | h)
    exacts [hname h, hemail h]
  refine ⟨?_, ?_, ?_, ?_⟩
  · intro saved
    simp [handleSubmit, hvalid]
  · simp [handleSubmit, hvalid]
  · intro r
    cases r <;> simp [handleSubmit, hvalid]
  · intro r
    cases r <;> simp [handleSubmit, hvalid]

theorem C2_create_server_confirmed_witness :
    (({ name := "Ana Ruiz", email := "ana@x.com", phone := "" } : FormData).name ≠ "") ∧
    (({ name := "Ana Ruiz", email := "ana@x.com", phone := "" } : FormData).email ≠ "") ∧
    (handleSubmit { name := "Ana Ruiz", email := "ana@x.com", phone := "" } [] 7 none).leads
      = [] :=
  ⟨by decide, by decide,
   (C2_create_server_confirmed { name := "Ana Ruiz", email := "ana@x.com", phone := "" }
      [] 7 (by decide) (by decide)).2.1⟩

/-- C3 as stated fails on the code: the draft `{name: " ", email: "ana@x.com"}` has a
name that is empty after trimming (whitespace-only), yet `handleSubmit`, whose guard
`!formData.name || !formData.email` only tests plain string emptiness, accepts it:
the remote create call is issued, and on a successful response a lead is inserted. -/
theorem C3_trimmed_draft_counterexample :
    trimEmpty " " = true ∧
    (handleSubmit { name := " ", email := "ana@x.com", phone := "" } [] 7
        (some { id := "9", name := " ", email := "ana@x.com", phone := "",
                status := Status.New, source := LeadSource.Manual,
                createdAt := 7 })).events.get? 0
      = some (Event.remote (RemoteCall.postLead
          (mkManualLead { name := " ", email := "ana@x.com", phone := "" } 7))) ∧
    (handleSubmit { name := " ", email := "ana@x.com", phone := "" } [] 7
        (some { id := "9", name := " ", email := "ana@x.com", phone := "",
                status := Status.New, source := LeadSource.Manual,
                createdAt := 7 })).leads ≠ [] := by
  refine ⟨by decide, by decide, by decide⟩

/-- C3 amended: for every draft whose name or email is the empty string (the code
tests plain emptiness, not emptiness after trimming — whitespace-only strings pass
the guard), `handleSubmit` signals the missing-information condition, changes the
collection not at all, and issues zero network calls. -/
theorem C3_empty_draft_rejected (form : FormData) (leads : List Lead) (now : Nat)
    (remote : Option Lead) (hempty : form.name = "" ∨ form.email = "") :
    (handleSubmit form leads now remote).leads = leads ∧
    (handleSubmit form leads now remote).events = [Event.toast "Missing Information"] ∧
    ∀ c : RemoteCall, Event.remote c ∉ (handleSubmit form leads now remote).events := by
  have h1 : handleSubmit form leads now remote
      = { leads := leads, form := form, events := [Event.toast "Missing Information"] } := by
    simp only [handleSubmit]
    rw [if_pos hempty]
  rw [h1]
  refine ⟨rfl, rfl, ?_⟩
  intro c
  simp

/-- A concrete nonempty collection used by the C3 witness. -/
def demoWitnessLeads : List Lead :=
  [{ id := "1", name := "Ana Ruiz", email := "ana@x.com", phone := "",
     status := Status.New, source := LeadSource.Manual, createdAt := 100 }]

theorem C3_empty_draft_rejected_witness :
    (({ name := "", email := "a@b.com", phone := "" } : FormData).name = "" ∨
      ({ name := "", email := "a@b.com", phone := "" } : FormData).email = "") ∧
    (handleSubmit { name := "", email := "a@b.com", phone := "" } demoWitnessLeads 7
        none).leads = demoWitnessLeads :=
  ⟨Or.inl rfl,
   (C3_empty_draft_rejected { name := "", email := "a@b.com", phone := "" }
      demoWitnessLeads 7 none (Or.inl rfl)).1⟩

/-- C4: for `handleStatusUpdate` and `handleDelete`, the optimistic local mutation
appears in the effect trace strictly before the remote call, the final collection
equals the optimistic one for every remote outcome (no rollback on failure), and a
remote failure is reported to the caller through the error toast. -/
theorem C4_optimistic_no_rollback (leads : List Lead) (leadId : String)
    (newStatus : Status) :
    (∀ remoteOk : Bool,
        (handleStatusUpdate leads leadId newStatus remoteOk).leads
          = onLeadUpdated leads leadId (statusUpdate newStatus) ∧
        (handleStatusUpdate leads leadId newStatus remoteOk).events.get? 0
          = some (Event.setLeadsLocal
              (onLeadUpdated leads leadId (statusUpdate newStatus))) ∧
        (handleStatusUpdate leads leadId newStatus remoteOk).events.get? 1
          = some (Event.remote (RemoteCall.putStatus leadId newStatus))) ∧
    Event.toast "Error" ∈ (handleStatusUpdate leads leadId newStatus false).events ∧
    (∀ remoteOk : Bool,
        (handleDelete leads leadId remoteOk).leads = onLeadDeleted leads leadId ∧
        (handleDelete leads leadId remoteOk).events.get? 0
          = some (Event.setLeadsLocal (onLeadDeleted leads leadId)) ∧
        (handleDelete leads leadId remoteOk).events.get? 1
          = some (Event.remote (RemoteCall.deleteLead leadId))) ∧
    Event.toast "Error" ∈ (handleDelete leads leadId false).events := by
  refine ⟨fun remoteOk => ⟨rfl, rfl, rfl⟩, ?_, fun remoteOk => ⟨rfl, rfl, rfl⟩, ?_⟩
  · simp [handleStatusUpdate]
  · simp [handleDelete]

/-- Identity of a lead is unchanged by the status-only update branch. -/
theorem statusWrite_id (lead : Lead) (leadId : String) (newStatus : Status) :
    (if lead.id = leadId then applyUpdates lead (statusUpdate newStatus) else lead).id
      = lead.id := by
  split <;> rfl

/-- C6: the optimistic mutation of `handleStatusUpdate` is exactly the map that
rewrites the status of leads with the matching id and fixes everything else: the
collection keeps its length and its id sequence (hence its order), every lead whose
id differs is untouched, and a matching lead is replaced by itself with only the
status field changed. -/
theorem C6_update_status_frame (leads : List Lead) (leadId : String) (newStatus : Status)
    (_hpresent : leadId ∈ leads.map Lead.id) :
    onLeadUpdated leads leadId (statusUpdate newStatus)
      = leads.map (fun l => if l.id = leadId then { l with status := newStatus } else l) ∧
    (onLeadUpdated leads leadId (statusUpdate newStatus)).map Lead.id
      = leads.map Lead.id ∧
    (onLeadUpdated leads leadId (statusUpdate newStatus)).length = leads.length ∧
    (∀ l ∈ leads, l.id ≠ leadId →
      l ∈ onLeadUpdated leads leadId (statusUpdate newStatus)) ∧
    (∀ l ∈ leads, l.id = leadId →
      { l with status := newStatus } ∈ onLeadUpdated leads leadId (statusUpdate newStatus)) := by
  refine ⟨rfl, ?_, ?_, ?_, ?_⟩
  · clear _hpresent
    simp only [onLeadUpdated, List.map_map]
    induction leads with
    | nil => rfl
    | cons l ls ih =>
        simp only [List.map_cons, Function.comp_apply, statusWrite_id]
        rw [ih]
  · simp [onLeadUpdated]
  · intro l hl hne
    exact List.mem_map.mpr ⟨l, hl, by rw [if_neg hne]⟩
  · intro l hl heq
    refine List.mem_map.mpr ⟨l, hl, ?_⟩
    rw [if_pos heq]
    rfl

/-- A concrete two-element collection used by the C6 witness. -/
def demoLeads : List Lead :=
  [{ id := "1", name := "Ana Ruiz", email := "ana@x.com", phone := "",
     status := Status.New, source := LeadSource.Manual, createdAt := 100 },
   { id := "2", name := "Bob", email := "bob@x.com", phone := "555",
     status := Status.Contacted, source := LeadSource.Document, createdAt := 200 }]

theorem C6_update_status_frame_witness :
    ("1" ∈ demoLeads.map Lead.id) ∧
    (onLeadUpdated demoLeads "1" (statusUpdate Status.Contacted)).map Lead.id
      = demoLeads.map Lead.id :=
  ⟨by decide, (C6_update_status_frame demoLeads "1" Status.Contacted (by decide)).2.1⟩

/-- Sizes of the `New` view and the `Contacted` view add up to the store size. -/
theorem filter_partition_length (leads : List Lead) :
    (filteredLeads leads StatusFilter.New).length
      + (filteredLeads leads StatusFilter.Contacted).length = leads.length := by
  simp only [filteredLeads]
  induction leads with
  | nil => rfl
  | cons l ls ih =>
      cases hst : l.status <;>
        simp [List.filter_cons, matchesFilter, hst] <;> omega

/-- C7: filtering is pure and never reorders: `All` returns the stored collection
itself (same size); `New` and `Contacted` are order-preserving subsequences whose
membership is exactly characterized by the lead status, which makes them disjoint
and makes their sizes add up to the store size — an exact partition, given that a
lead status is always `New` or `Contacted`. -/
theorem C7_filter_views (leads : List Lead) :
    filteredLeads leads StatusFilter.All = leads ∧
    (filteredLeads leads StatusFilter.All).length = leads.length ∧
    List.Sublist (filteredLeads leads StatusFilter.New) leads ∧
    List.Sublist (filteredLeads leads StatusFilter.Contacted) leads ∧
    (∀ l, l ∈ filteredLeads leads StatusFilter.New ↔
      l ∈ leads ∧ l.status = Status.New) ∧
    (∀ l, l ∈ filteredLeads leads StatusFilter.Contacted ↔
      l ∈ leads ∧ l.status = Status.Contacted) ∧
    (∀ l, ¬(l ∈ filteredLeads leads StatusFilter.New ∧
      l ∈ filteredLeads leads StatusFilter.Contacted)) ∧
    (filteredLeads leads StatusFilter.New).length
      + (filteredLeads leads StatusFilter.Contacted).length = leads.length := by
  have hall : filteredLeads leads StatusFilter.All = leads := by
    simp [filteredLeads, matchesFilter]
  have hnew : ∀ l, l ∈ filteredLeads leads StatusFilter.New ↔
      l ∈ leads ∧ l.status = Status.New := by
    intro l
    simp [filteredLeads, List.mem_filter, matchesFilter]
  have hcon : ∀ l, l ∈ filteredLeads leads StatusFilter.Contacted ↔
      l ∈ leads ∧ l.status = Status.Contacted := by
    intro l
    simp [filteredLeads, List.mem_filter, matchesFilter]
  refine ⟨hall, by rw [hall], List.filter_sublist _, List.filter_sublist _,
    hnew, hcon, ?_, filter_partition_length leads⟩
  intro l ⟨h1, h2⟩
  have e1 := ((hnew l).mp h1).2
  have e2 := ((hcon l).mp h2).2
  rw [e1] at e2
  exact Status.noConfusion e2

/-- C8: a file whose media type is not `application/pdf` is rejected with the
invalid-file-type toast before any work happens: for every extraction-service
behavior, component state and collection are returned unchanged, no extraction call
is issued and no lead is added. -/
theorem C8_non_pdf_rejected (st : FormState) (leads : List Lead) (f : UploadFile)
    (now : Nat) (remote : Option ExtractResult)
    (hnotpdf : f.mediaType ≠ "application/pdf") :
    handleFileUpload st leads (some f) now remote
      = { state := st, leads := leads, events := [Event.toast "Invalid File Type"] } ∧
    (∀ c : RemoteCall,
      Event.remote c ∉ (handleFileUpload st leads (some f) now remote).events) ∧
    (∀ lead : Lead,
      Event.leadAdded lead ∉ (handleFileUpload st leads (some f) now remote).events) := by
  have hmem : f.mediaType ∉ (["application/pdf"] : List String) := by
    simp [hnotpdf]
  have h1 : handleFileUpload st leads (some f) now remote
      = { state := st, leads := leads, events := [Event.toast "Invalid File Type"] } := by
    simp only [handleFileUpload]
    rw [if_neg hmem]
  refine ⟨h1, ?_, ?_⟩
  · intro c
    rw [h1]
    simp
  · intro lead
    rw [h1]
    simp

theorem C8_non_pdf_rejected_witness :
    (({ fileName := "notes.txt", mediaType := "text/plain" } : UploadFile).mediaType
      ≠ "application/pdf") ∧
    handleFileUpload { formData := emptyForm, uploadedFile := none, isProcessing := false }
        [] (some { fileName := "notes.txt", mediaType := "text/plain" }) 7 none
      = { state := { formData := emptyForm, uploadedFile := none, isProcessing := false },
          leads := [], events := [Event.toast "Invalid File Type"] } :=
  ⟨by decide,
   (C8_non_pdf_rejected { formData := emptyForm, uploadedFile := none, isProcessing := false }
      [] { fileName := "notes.txt", mediaType := "text/plain" } 7 none (by decide)).1⟩

/-- C10: when no lead in the collection carries the given id, the optimistic update
and the optimistic removal are both exact no-ops on the collection — the handlers
still run (and report success or failure), but the local collection is unchanged. -/
theorem C10_unknown_id_noop (leads : List Lead) (leadId : String) (newStatus : Status)
    (habsent : ∀ l ∈ leads, l.id ≠ leadId) :
    onLeadUpdated leads leadId (statusUpdate newStatus) = leads ∧
    onLeadDeleted leads leadId = leads ∧
    (∀ remoteOk : Bool,
      (handleStatusUpdate leads leadId newStatus remoteOk).leads = leads) ∧
    (∀ remoteOk : Bool, (handleDelete leads leadId remoteOk).leads = leads) := by
  have hupd : onLeadUpdated leads leadId (statusUpdate newStatus) = leads :=
    list_map_id_of_mem _ _ (fun l hl => by rw [if_neg (habsent l hl)])
  have hdel : onLeadDeleted leads leadId = leads := by
    refine List.filter_eq_self.mpr (fun l hl => ?_)
    exact bne_iff_ne.mpr (habsent l hl)
  exact ⟨hupd, hdel, fun remoteOk => hupd, fun remoteOk => hdel⟩

/-- A concrete collection used by the C10 witness. -/
def c10Leads : List Lead :=
  [{ id := "1", name := "Ana Ruiz", email := "ana@x.com", phone := "",
     status := Status.New, source := LeadSource.Manual, createdAt := 100 },
   { id := "2", name := "Bob", email := "bob@x.com", phone := "555",
     status := Status.Contacted, source := LeadSource.Document, createdAt := 200 }]

theorem C10_unknown_id_noop_witness :
    (∀ l ∈ c10Leads, l.id ≠ "zz") ∧
    onLeadDeleted c10Leads "zz" = c10Leads :=
  ⟨by decide, (C10_unknown_id_noop c10Leads "zz" Status.Contacted (by decide)).2.1⟩

/-- C1: in every reachable session state, once a stream has been cancelled (the
`.abort()` of its `AbortController` generation has run, which happens when the session
closes or a new send aborts the live controller), delivering any further chunk of
that stream leaves every transcript message exactly unchanged; and no later session
event un-aborts the controller, so no chunk from a cancelled stream is ever appended
to any transcript message afterwards. -/
theorem C1_cancelled_stream_never_appends (acts : List ChatAction) (i : Nat)
    (chunk : String) (sr : StreamReq)
    (hg : (runChat acts).streams.get? i = some sr)
    (hab : sr.ctrl ∈ (runChat acts).aborted) :
    (chatStep (runChat acts) (ChatAction.deliverChunk i chunk)).messages
      = (runChat acts).messages ∧
    ∀ a : ChatAction, sr.ctrl ∈ (chatStep (runChat acts) a).aborted :=
  ⟨cancelled_deliver_messages (runChat acts) (chatInv_run acts) i chunk sr hg hab,
   fun a => aborted_mono (runChat acts) a sr.ctrl hab⟩

/-- Concrete run for the C1 witness: open the modal, type a question, send it
(starting a stream), then close the modal, which cancels the stream. -/
def c1Acts : List ChatAction :=
  [ChatAction.openModal "Ana", ChatAction.setInput "Should I call now?",
   ChatAction.send, ChatAction.closeModal]

theorem C1_cancelled_stream_never_appends_witness :
    ((runChat c1Acts).streams.get? 0 = some { target := 2, ctrl := 0, acc := "" }) ∧
    ((0 : Nat) ∈ (runChat c1Acts).aborted) ∧
    (chatStep (runChat c1Acts) (ChatAction.deliverChunk 0 "Yes")).messages
      = (runChat c1Acts).messages :=
  ⟨by decide, by decide,
   (C1_cancelled_stream_never_appends c1Acts 0 "Yes" { target := 2, ctrl := 0, acc := "" }
      (by decide) (by decide)).1⟩

/-- C5: every exit path releases the busy flags: settling an in-flight stream by
completion or by an error of either kind, and closing the session, all leave the
chat `loading` flag false and the stream handle null; and `handleFileUpload` on an
accepted PDF ends with `isProcessing = false` on both the extraction-success and the
extraction-failure path. -/
theorem C5_flags_released (s : Session) (i : Nat) (b : Bool)
    (st : FormState) (leads : List Lead) (f : UploadFile) (now : Nat)
    (remote : Option ExtractResult)
    (hi : i < s.streams.length) (hpdf : f.mediaType = "application/pdf") :
    ((chatStep s (ChatAction.streamComplete i)).loading = false ∧
     (chatStep s (ChatAction.streamComplete i)).current = none) ∧
    ((chatStep s (ChatAction.streamError i b)).loading = false ∧
     (chatStep s (ChatAction.streamError i b)).current = none) ∧
    ((chatStep s ChatAction.closeModal).loading = false ∧
     (chatStep s ChatAction.closeModal).current = none) ∧
    (handleFileUpload st leads (some f) now remote).state.isProcessing = false := by
  obtain ⟨sr, hsr⟩ : ∃ sr, s.streams.get? i = some sr :=
    ⟨s.streams.get ⟨i, hi⟩, List.get?_eq_get hi⟩
  have hsr2 : s.streams[i]? = some sr := by
    rw [← List.get?_eq_getElem?]
    exact hsr
  have hmem : f.mediaType ∈ (["application/pdf"] : List String) := by
    simp [hpdf]
  refine ⟨⟨?_, ?_⟩, ⟨?_, ?_⟩, ⟨?_, ?_⟩, ?_⟩
  · simp [chatStep, hsr, hsr2]
  · simp [chatStep, hsr, hsr2]
  · cases b <;> simp [chatStep, hsr, hsr2]
  · cases b <;> simp [chatStep, hsr, hsr2]
  · cases hc : s.current <;> simp [chatStep, abortCurrent, hc]
  · cases hc : s.current <;> simp [chatStep, abortCurrent, hc]
  · cases remote with
    | none =>
        simp only [handleFileUpload]
        rw [if_pos hmem]
    | some data =>
        simp only [handleFileUpload]
        rw [if_pos hmem]

/-- Concrete run for the C5 witness: a session with one in-flight stream. -/
def c5Acts : List ChatAction :=
  [ChatAction.openModal "Ana", ChatAction.setInput "Should I call now?",
   ChatAction.send]

theorem C5_flags_released_witness :
    (0 < (runChat c5Acts).streams.length) ∧
    (({ fileName := "lead.pdf", mediaType := "application/pdf" } : UploadFile).mediaType
      = "application/pdf") ∧
    ((chatStep (runChat c5Acts) (ChatAction.streamComplete 0)).loading = false ∧
     (chatStep (runChat c5Acts) (ChatAction.streamComplete 0)).current = none) :=
  ⟨by decide, rfl,
   (C5_flags_released (runChat c5Acts) 0 true
      { formData := emptyForm, uploadedFile := none, isProcessing := true } []
      { fileName := "lead.pdf", mediaType := "application/pdf" } 7 none
      (by decide) rfl).1⟩

/-- C9: when an in-flight stream settles with an error, the cancellation
(`AbortError`) branch leaves the whole transcript exactly as it is — the placeholder
keeps its accumulated partial text and receives no error marker — while any other
error rewrites exactly the placeholder targeted by the stream to the fixed failure
notice, every message with a different id being kept verbatim. -/
theorem C9_stream_error_placeholder (s : Session) (i : Nat) (sr : StreamReq)
    (hg : s.streams.get? i = some sr) :
    ((chatStep s (ChatAction.streamError i true)).messages = s.messages) ∧
    ((chatStep s (ChatAction.streamError i false)).messages
        = s.messages.map (fun m =>
            if m.id = MsgId.aiMsg sr.target then { m with text := failNotice } else m)) ∧
    (∀ m ∈ s.messages, m.id ≠ MsgId.aiMsg sr.target →
        m ∈ (chatStep s (ChatAction.streamError i false)).messages) := by
  have hg2 : s.streams[i]? = some sr := by
    rw [← List.get?_eq_getElem?]
    exact hg
  refine ⟨?_, ?_, ?_⟩
  · simp [chatStep, hg, hg2]
  · simp [chatStep, hg, hg2]
  · intro m hm hne
    simp only [chatStep, hg]
    simp only [Bool.false_eq_true, if_false]
    exact List.mem_map.mpr ⟨m, hm, by rw [if_neg hne]⟩

/-- Concrete run for the C9 witness: a session whose stream has already delivered a
partial chunk. -/
def c9Acts : List ChatAction :=
  [ChatAction.openModal "Ana", ChatAction.setInput "Should I call now?",
   ChatAction.send, ChatAction.deliverChunk 0 "Yes"]

theorem C9_stream_error_placeholder_witness :
    ((runChat c9Acts).streams.get? 0 = some { target := 2, ctrl := 0, acc := "Yes" }) ∧
    (chatStep (runChat c9Acts) (ChatAction.streamError 0 true)).messages
      = (runChat c9Acts).messages :=
  ⟨by decide,
   (C9_stream_error_placeholder (runChat c9Acts) 0 { target := 2, ctrl := 0, acc := "Yes" }
      (by decide)).1⟩
